import Mathlib

/-!
Verification of the notes CRUD data-access and pagination layer
(`src/dao/note-dao.js`, `src/service/note-service.js`, `src/model/note.js`,
`src/model/uuidv4.js`, and the SQLite bootstrap schema).

Modelling conventions:
* A table row is a `Row`; the `Note` table is a `Store` (a `List Row` in
  storage order).  The 16-byte `id BLOB PRIMARY KEY` is modelled as the
  128-bit numeric value `Nat`: SQLite compares equal-length blobs by
  `memcmp`, which on the 16 uuid bytes coincides with numeric order of the
  128-bit value, and `parse` of the uuid string produces exactly those bytes.
* Timestamps are milliseconds (`Nat`), as produced by
  `CAST((unixepoch('subsec') * 1000) AS INTEGER)`.
* Each data-access operation takes a `fault : Option DbErr` oracle: `some e`
  means the underlying better-sqlite3 call throws `e`, `none` means the
  statement executes normally.  Argument validation in the JS code happens
  before the `try` block that touches the database, so it is modelled
  before the `fault` dispatch.
* JS exceptions become `Except Err`.  A service-level transaction
  (`databaseConnection.transaction(...)`) rolls back on a thrown error, so
  an `Except.error` result carries no state: the store observed afterwards
  is the input store (made explicit by `resultingStore`).
* `ORDER BY creationDateTime DESC, id ASC LIMIT n` returns the unique
  sorted permutation truncated to `n` rows (unique because the primary key
  makes `pageOrder` antisymmetric on distinct rows); it is modelled by
  `List.insertionSort pageOrder` followed by `List.take`.
-/

/-- A persisted row of the SQLite `Note` table:
`id BLOB PRIMARY KEY` (the 16 uuid bytes, modelled as the 128-bit value),
`content TEXT NOT NULL`, and the two millisecond-timestamp columns whose
insert-time defaults are the current time. -/
structure Row where
  id : Nat
  content : String
  creationDateTime : Nat
  lastUpdatedDateTime : Nat
deriving DecidableEq

/-- The `Note` table contents, in storage order. -/
abbrev Store := List Row

/-- An error thrown by the underlying better-sqlite3 driver. -/
inductive DbErr where
  | busy
  | ioFailure
  | constraintViolation
deriving DecidableEq

/-- The JS error kinds surfaced by the data-access and service layers:
`TypeError`, `RangeError`, `DaoError` (wrapping a database cause),
`EntityNotFoundError`, and `ServiceError` (wrapping its cause). -/
inductive Err where
  | typeError
  | rangeError
  | daoError (cause : DbErr)
  | entityNotFound
  | serviceError (cause : Err)
deriving DecidableEq

/-- The `pageSize` argument as received from JS: `undefined`, a
non-integer value, or an integer. -/
inductive PageSizeArg where
  | missing
  | notInt
  | int (n : Int)
deriving DecidableEq

/-- The `afterId` argument as received from JS: `undefined`, a value that
is not a `UuidV4` instance, or a valid identifier (its 128-bit value). -/
inductive AfterIdArg where
  | missing
  | notUuid
  | uuid (id : Nat)
deriving DecidableEq

/-- The `NoteListPage` result object: the requested page-size bound and
the notes of the page (a mapped copy of the selected rows). -/
structure NoteListPage where
  pageSize : Int
  notes : List Row
deriving DecidableEq

/-- The page ordering of `list`: `ORDER BY creationDateTime DESC, id ASC`.
`pageOrder a b` holds when row `a` may appear before row `b`. -/
def pageOrder (a b : Row) : Prop :=
  b.creationDateTime < a.creationDateTime ∨
    (a.creationDateTime = b.creationDateTime ∧ a.id ≤ b.id)

instance : DecidableRel pageOrder := fun a b => by
  unfold pageOrder
  exact inferInstance

instance : IsTotal Row pageOrder :=
  ⟨by intro a b; unfold pageOrder; omega⟩

instance : IsTrans Row pageOrder :=
  ⟨by intro a b c; unfold pageOrder; omega⟩

/-- `NoteDao.MIN_PAGE_SIZE`. -/
def NoteDao.MIN_PAGE_SIZE : Int := 1

/-- `NoteDao.MAX_PAGE_SIZE`. -/
def NoteDao.MAX_PAGE_SIZE : Int := 100

/-- `NoteDao.DEFAULT_PAGE_SIZE`. -/
def NoteDao.DEFAULT_PAGE_SIZE : Int := 20

/-- The `pageSize` validation prologue of `NoteDao.list` (and, verbatim,
of `NoteService.list`): default to 20 when `undefined`, `TypeError` when
not an integer, `RangeError` when outside `[1, 100]`. -/
def NoteDao.validatePageSize (pageSize : PageSizeArg) : Except Err Int :=
  match pageSize with
  | .missing => .ok NoteDao.DEFAULT_PAGE_SIZE
  | .notInt => .error .typeError
  | .int n =>
    if n < NoteDao.MIN_PAGE_SIZE ∨ NoteDao.MAX_PAGE_SIZE < n then .error .rangeError
    else .ok n

/-- The `afterId` validation prologue of `NoteDao.list` (and of
`NoteService.list`): `undefined` is allowed, any other non-`UuidV4` value
is a `TypeError`. -/
def NoteDao.validateAfterId (afterId : AfterIdArg) : Except Err (Option Nat) :=
  match afterId with
  | .missing => .ok none
  | .notUuid => .error .typeError
  | .uuid a => .ok (some a)

/-- `NoteDao.list`: validate the arguments, then run
`SELECT ... FROM Note [WHERE id > :afterId] ORDER BY creationDateTime DESC,
id ASC LIMIT :pageSize` and wrap the rows in a `NoteListPage` that records
the requested bound. -/
def NoteDao.list (store : Store) (fault : Option DbErr)
    (pageSize : PageSizeArg) (afterId : AfterIdArg) : Except Err NoteListPage := do
  let ps ← NoteDao.validatePageSize pageSize
  let after ← NoteDao.validateAfterId afterId
  match fault with
  | some e => .error (.daoError e)
  | none =>
    let rows : Store :=
      match after with
      | none => store
      | some a => store.filter fun r => decide (a < r.id)
    .ok { pageSize := ps, notes := (List.insertionSort pageOrder rows).take ps.toNat }

/-- `NoteDao.findById`: `SELECT ... FROM Note WHERE id = :id`, returning
`none` (JS `null`) when no row matches; a database failure is wrapped into
a `DaoError` carrying the cause. -/
def NoteDao.findById (store : Store) (fault : Option DbErr) (id : Nat) :
    Except Err (Option Row) :=
  match fault with
  | some e => .error (.daoError e)
  | none => .ok (store.find? fun r => r.id == id)

/-- `NoteDao.create`: generate a fresh uuid (the `genId` oracle models
`uuidv4()`), then `INSERT INTO Note (id, content) VALUES (:id, :content)`;
the schema defaults assign both timestamps the insert time `now`.  A
primary-key collision is a constraint failure wrapped into a `DaoError`. -/
def NoteDao.create (store : Store) (fault : Option DbErr) (genId now : Nat)
    (content : String) : Except Err (Nat × Store) :=
  match fault with
  | some e => .error (.daoError e)
  | none =>
    if store.any fun r => r.id == genId then .error (.daoError .constraintViolation)
    else
      .ok (genId, store ++ [{ id := genId, content := content, creationDateTime := now, lastUpdatedDateTime := now }])

/-- The bare `UPDATE Note SET content = :content WHERE id = :id` statement,
before any trigger fires: it touches only the `content` column. -/
def NoteDao.updateContentStmt (store : Store) (id : Nat) (content : String) : Store :=
  store.map fun r => if r.id = id then { r with content := content } else r

/-- The schema trigger `tr_Note_update_lastUpdatedDateTime_au`
(`AFTER UPDATE ON Note`): stamps `lastUpdatedDateTime` of the updated row
(`WHERE id = new.id`) with the current time. -/
def tr_Note_update_lastUpdatedDateTime_au (store : Store) (now id : Nat) : Store :=
  store.map fun r => if r.id = id then { r with lastUpdatedDateTime := now } else r

/-- Whether some row of the store has the given id (the condition under
which the `UPDATE` statement updates a row and the trigger fires). -/
def rowMatches (store : Store) (id : Nat) : Bool :=
  store.any fun r => r.id == id

/-- `NoteDao.update`: run the `UPDATE` statement; when a row was updated
the `AFTER UPDATE` trigger stamps its `lastUpdatedDateTime`.  The
operation is unconditional: a missing row is not an error. -/
def NoteDao.update (store : Store) (fault : Option DbErr) (now id : Nat)
    (content : String) : Except Err Store :=
  match fault with
  | some e => .error (.daoError e)
  | none =>
    let updated := NoteDao.updateContentStmt store id content
    .ok (if rowMatches store id then
      tr_Note_update_lastUpdatedDateTime_au updated now id
    else updated)

/-- `NoteDao.deleteById`: `DELETE FROM Note WHERE id = :id`; a missing row
is not an error. -/
def NoteDao.deleteById (store : Store) (fault : Option DbErr) (id : Nat) :
    Except Err Store :=
  match fault with
  | some e => .error (.daoError e)
  | none => .ok (store.filter fun r => !(r.id == id))

/-- `NoteDao.findAll`: `SELECT ... FROM Note` with no ordering clause,
returning the rows in storage order. -/
def NoteDao.findAll (store : Store) (fault : Option DbErr) : Except Err Store :=
  match fault with
  | some e => .error (.daoError e)
  | none => .ok store

/-- The store observed after a state-changing call: the new store on
success, the unchanged input store when an error was thrown (single
statements are atomic, and the service transactions roll back). -/
def resultingStore (r : Except Err Store) (store : Store) : Store :=
  match r with
  | .ok s => s
  | .error _ => store

/-- `NoteService.create`: delegate to the dao, wrapping any thrown error
in a `ServiceError`. -/
def NoteService.create (store : Store) (fault : Option DbErr) (genId now : Nat)
    (content : String) : Except Err (Nat × Store) :=
  match NoteDao.create store fault genId now content with
  | .error e => .error (.serviceError e)
  | .ok v => .ok v

/-- `NoteService.findById`: delegate to the dao, wrapping any thrown error
in a `ServiceError`. -/
def NoteService.findById (store : Store) (fault : Option DbErr) (id : Nat) :
    Except Err (Option Row) :=
  match NoteDao.findById store fault id with
  | .error e => .error (.serviceError e)
  | .ok v => .ok v

/-- `NoteService.list`: re-validate `pageSize` and `afterId` with the same
checks as the dao (defense in depth), then delegate, wrapping any thrown
error in a `ServiceError`. -/
def NoteService.list (store : Store) (fault : Option DbErr)
    (pageSize : PageSizeArg) (afterId : AfterIdArg) : Except Err NoteListPage := do
  let ps ← NoteDao.validatePageSize pageSize
  let after ← NoteDao.validateAfterId afterId
  match NoteDao.list store fault (.int ps)
      (match after with | none => .missing | some a => .uuid a) with
  | .error e => .error (.serviceError e)
  | .ok page => .ok page

/-- `NoteService.findAll`: delegate to the dao, wrapping any thrown error
in a `ServiceError`. -/
def NoteService.findAll (store : Store) (fault : Option DbErr) : Except Err Store :=
  match NoteDao.findAll store fault with
  | .error e => .error (.serviceError e)
  | .ok v => .ok v

/-- `NoteService.update`: inside an immediate transaction, look the id up
(`findById`, its failure wrapped in a `ServiceError`); throw
`EntityNotFoundError` when absent (rolling back); otherwise run the dao
update (its failure wrapped in a `ServiceError`). -/
def NoteService.update (store : Store) (fault : Option DbErr) (now id : Nat)
    (content : String) : Except Err Store :=
  match NoteDao.findById store fault id with
  | .error e => .error (.serviceError e)
  | .ok none => .error .entityNotFound
  | .ok (some _) =>
    match NoteDao.update store fault now id content with
    | .error e => .error (.serviceError e)
    | .ok s => .ok s

/-- `NoteService.deleteById`: inside an immediate transaction, look the id
up; throw `EntityNotFoundError` when absent (rolling back); otherwise run
the dao delete. -/
def NoteService.deleteById (store : Store) (fault : Option DbErr) (id : Nat) :
    Except Err Store :=
  match NoteDao.findById store fault id with
  | .error e => .error (.serviceError e)
  | .ok none => .error .entityNotFound
  | .ok (some _) =>
    match NoteDao.deleteById store fault id with
    | .error e => .error (.serviceError e)
    | .ok s => .ok s

/-!
Identifier model (`src/model/uuidv4.js` on top of the `uuid@9` package).

`validate(value)` of `uuid@9` tests the string against the case-insensitive
regular expression
`/^(?:[0-9a-f]\x7b8\x7d-[0-9a-f]\x7b4\x7d-[1-5][0-9a-f]\x7b3\x7d-[89ab][0-9a-f]\x7b3\x7d-[0-9a-f]\x7b12\x7d|00000000-0000-0000-0000-000000000000)$/i`,
and `version(value)` is `parseInt(value.slice(14, 15), 16)`.  The `UuidV4`
constructor accepts `value` iff `validate(value) && version(value) === 4`.
The regular expression is modelled as a sequential matcher over the
character list, one matcher per regex atom.
-/

/-- Character class `[0-9a-f]` under the regex `i` flag: a hexadecimal
digit of either case. -/
def isHexDigitChar (c : Char) : Bool :=
  decide ('0' ≤ c ∧ c ≤ '9') || decide ('a' ≤ c ∧ c ≤ 'f') || decide ('A' ≤ c ∧ c ≤ 'F')

/-- Numeric value of one hexadecimal digit, as `parseInt(d, 16)` computes
it (any non-hex argument, which `parseInt` maps to `NaN`, is mapped to an
out-of-band 0). -/
def hexVal (c : Char) : Nat :=
  if decide ('0' ≤ c ∧ c ≤ '9') then c.toNat - '0'.toNat
  else if decide ('a' ≤ c ∧ c ≤ 'f') then c.toNat - 'a'.toNat + 10
  else if decide ('A' ≤ c ∧ c ≤ 'F') then c.toNat - 'A'.toNat + 10
  else 0

/-- Regex atom `[0-9a-f]\x7bn\x7d`: consume `n` hex digits. -/
def matchHexRun : Nat → List Char → Option (List Char)
  | 0, cs => some cs
  | _ + 1, [] => none
  | n + 1, c :: cs => if isHexDigitChar c then matchHexRun n cs else none

/-- Regex atom for a literal character: consume exactly `x`. -/
def matchLit (x : Char) : List Char → Option (List Char)
  | [] => none
  | c :: cs => if c = x then some cs else none

/-- Regex atom for a character class: consume one character of `xs`. -/
def matchOneOf (xs : List Char) : List Char → Option (List Char)
  | [] => none
  | c :: cs => if c ∈ xs then some cs else none

/-- The version character class `[1-5]` of the `uuid@9` regex. -/
def versionChars : List Char := ['1', '2', '3', '4', '5']

/-- The variant character class `[89ab]` of the `uuid@9` regex, under the
`i` flag. -/
def variantChars : List Char := ['8', '9', 'a', 'b', 'A', 'B']

/-- The main alternative of the `uuid@9` validation regex, anchored on
both sides: eight hex digits, dash, four hex digits, dash, a version
digit `[1-5]`, three hex digits, dash, a variant character `[89ab]` (either
case), three hex digits, dash, twelve hex digits. -/
def uuidMainPattern (cs : List Char) : Bool :=
  decide ((do
    let cs ← matchHexRun 8 cs
    let cs ← matchLit '-' cs
    let cs ← matchHexRun 4 cs
    let cs ← matchLit '-' cs
    let cs ← matchOneOf versionChars cs
    let cs ← matchHexRun 3 cs
    let cs ← matchLit '-' cs
    let cs ← matchOneOf variantChars cs
    let cs ← matchHexRun 3 cs
    let cs ← matchLit '-' cs
    matchHexRun 12 cs : Option (List Char)) = some [])

/-- The nil-uuid alternative of the `uuid@9` validation regex. -/
def NIL_UUID : String := "00000000-0000-0000-0000-000000000000"

/-- `validate` of `uuid@9`: the string matches the main pattern or is the
nil uuid. -/
def validateUuid (s : String) : Bool :=
  uuidMainPattern s.data || s == NIL_UUID

/-- `version` of `uuid@9`: `parseInt(value.slice(14, 15), 16)`, the
numeric value of the character at index 14 (0 stands for the `NaN` that
`parseInt` yields on an empty slice or the nil uuid's `0` digit — both
compare unequal to 4). -/
def uuidVersion (s : String) : Nat :=
  hexVal (s.data.getD 14 ' ')

/-- The acceptance condition of the `UuidV4` constructor:
`validateUuid(value) && uuidVersion(value) === 4`. -/
def uuidV4Accepts (s : String) : Bool :=
  validateUuid s && uuidVersion s == 4

/-- The `UuidV4` wrapper: an immutable object holding the accepted string
in its `value` field.  Equality of wrappers is equality of the stored
strings. -/
structure UuidV4 where
  value : String
deriving DecidableEq

/-- The `UuidV4` constructor as a total function: `some` wrapper on an
accepted string, `none` when the constructor throws its `TypeError`. -/
def UuidV4.make (s : String) : Option UuidV4 :=
  if uuidV4Accepts s then some ⟨s⟩ else none

/-- Modelled from the spec: the claim-side acceptance predicate of C7, a
syntactically valid version-4 identifier rendered in canonical *lowercase*
dashed hexadecimal form (lowercase hex digits, dashes at positions
8, 13, 18, 23, version nibble `4` at position 14, variant nibble in
`[89ab]` at position 19). -/
def isLowercaseCanonicalV4 (s : String) : Bool :=
  s.data.length == 36 &&
  (List.range 36).all fun i =>
    let c := s.data.getD i ' '
    if i = 8 ∨ i = 13 ∨ i = 18 ∨ i = 23 then c == '-'
    else if i = 14 then c == '4'
    else if i = 19 then decide (c ∈ (['8', '9', 'a', 'b'] : List Char))
    else decide ('0' ≤ c ∧ c ≤ '9') || decide ('a' ≤ c ∧ c ≤ 'f')

/-- The segment-level description of the strings the `UuidV4` constructor
accepts: the dashed 8-4-4-4-12 hexadecimal shape with hex digits of either
case, the version character fixed to `4`, and the variant character in
`[89ab]` of either case. -/
def V4Segments (cs : List Char) : Prop :=
  ∃ s1 s2 s3 s4 s5 vr,
    cs = s1 ++ '-' :: (s2 ++ '-' :: '4' :: (s3 ++ '-' :: vr :: (s4 ++ '-' :: s5))) ∧
    s1.length = 8 ∧ s2.length = 4 ∧ s3.length = 3 ∧ s4.length = 3 ∧ s5.length = 12 ∧
    (∀ c ∈ s1 ++ s2 ++ s3 ++ s4 ++ s5, isHexDigitChar c = true) ∧
    vr ∈ variantChars

/-!
Transfer/entity class hierarchy (`src/model/note.js`):
`class NoteForCreate`, `class NoteForUpdate extends NoteForCreate`,
`class Note extends NoteForUpdate`.  Values carry the fields their
constructors validated; `instanceOf` is the JS `instanceof` test along
the prototype chain.
-/

/-- The three transfer/entity classes of `note.js`. -/
inductive NoteClass where
  | noteForCreate
  | noteForUpdate
  | note
deriving DecidableEq

/-- A constructed instance of one of the three classes. -/
inductive NoteObjectValue where
  | forCreate (content : String)
  | forUpdate (id : Nat) (content : String)
  | full (id : Nat) (content : String) (creationDateTime lastUpdatedDateTime : Nat)
deriving DecidableEq

/-- The JS `instanceof` test: a value is an instance of its own class and
of every class further up the `extends` chain
(`Note extends NoteForUpdate extends NoteForCreate`). -/
def instanceOf (v : NoteObjectValue) (cls : NoteClass) : Bool :=
  match v, cls with
  | .forCreate _, .noteForCreate => true
  | .forCreate _, _ => false
  | .forUpdate _ _, .noteForCreate => true
  | .forUpdate _ _, .noteForUpdate => true
  | .forUpdate _ _, .note => false
  | .full _ _ _ _, _ => true

/-- `NoteDao.#mapRowToNote`: a selected row becomes a full `Note`
instance. -/
def mapRowToNote (r : Row) : NoteObjectValue :=
  .full r.id r.content r.creationDateTime r.lastUpdatedDateTime

/-- The `content` field read through the `NoteForCreate` getter. -/
def NoteObjectValue.contentOf : NoteObjectValue → String
  | .forCreate c => c
  | .forUpdate _ c => c
  | .full _ c _ _ => c

/-- `NoteDao.update` with its receiver-side `instanceof NoteForUpdate`
guard made explicit: the guard throws `TypeError`, otherwise the row
update runs with the value's `id` and `content`. -/
def NoteDao.updateObj (store : Store) (fault : Option DbErr) (now : Nat)
    (v : NoteObjectValue) : Except Err Store :=
  if !(instanceOf v .noteForUpdate) then .error .typeError
  else
    match v with
    | .forCreate _ => .error .typeError
    | .forUpdate id content => NoteDao.update store fault now id content
    | .full id content _ _ => NoteDao.update store fault now id content

/-- `NoteDao.create` with its receiver-side `instanceof NoteForCreate`
guard made explicit. -/
def NoteDao.createObj (store : Store) (fault : Option DbErr) (genId now : Nat)
    (v : NoteObjectValue) : Except Err (Nat × Store) :=
  if !(instanceOf v .noteForCreate) then .error .typeError
  else NoteDao.create store fault genId now v.contentOf

/-- A store of 11 notes `n0` … `n10` created one after another
(creation times 1000 … 1010), whose randomly generated identifiers came
out in increasing byte order 1 … 11.  Used to evaluate the `afterId`
pagination chain on a concrete run. -/
def elevenNoteStore : Store :=
  (List.range 11).map fun i =>
    { id := i + 1, content := "n" ++ toString i,
      creationDateTime := 1000 + i, lastUpdatedDateTime := 1000 + i }

deriving instance DecidableEq for Except

/-!
Helper lemmas shared by the claim theorems.
-/

/-- A fault-free `NoteDao.update` run: the `UPDATE` statement plus the
`AFTER UPDATE` trigger amount to one row-wise map that rewrites `content`
and stamps `lastUpdatedDateTime` on the matching row and keeps every other
row intact. -/
theorem NoteDao.update_ok (store : Store) (now id : Nat) (c : String) :
    NoteDao.update store none now id c =
      .ok (store.map fun r =>
        if r.id = id then { r with content := c, lastUpdatedDateTime := now } else r) := by
  unfold NoteDao.update
  by_cases h : rowMatches store id
  · simp only [h, if_true]
    unfold NoteDao.updateContentStmt tr_Note_update_lastUpdatedDateTime_au
    rw [List.map_map]
    congr 1
    apply List.map_congr_left
    intro r _
    by_cases hr : r.id = id <;> simp [Function.comp, hr]
  · rw [Bool.not_eq_true] at h
    have h' : ∀ r ∈ store, r.id ≠ id := by simpa [rowMatches] using h
    have e1 : NoteDao.updateContentStmt store id c = store := by
      unfold NoteDao.updateContentStmt
      exact (List.map_congr_left (g := fun r => r) fun r hr => if_neg (h' r hr)).trans
        (List.map_id' store)
    have e2 : (store.map fun r =>
        if r.id = id then { r with content := c, lastUpdatedDateTime := now } else r) = store :=
      (List.map_congr_left (g := fun r => r) fun r hr => if_neg (h' r hr)).trans
        (List.map_id' store)
    simp only [h, Bool.false_eq_true, if_false, e1, e2]

/-- A store with no row of the given id yields `none` from the
`WHERE id = :id` lookup. -/
theorem findNone_of_absent (store : Store) (id : Nat) (h : ∀ r ∈ store, r.id ≠ id) :
    (store.find? fun r => r.id == id) = none := by
  rw [List.find?_eq_none]
  intro r hr
  simp [h r hr]

/-- Matching a literal regex character consumes exactly that character. -/
theorem matchLit_eq_some {x : Char} {cs rest : List Char} :
    matchLit x cs = some rest ↔ cs = x :: rest := by
  cases cs with
  | nil => simp [matchLit]
  | cons c cs =>
    simp only [matchLit, List.cons.injEq]
    by_cases h : c = x
    · subst h
      simp
    · simp [h, fun hx : x = c => h hx.symm]

/-- Matching a character class consumes exactly one character of the
class. -/
theorem matchOneOf_eq_some {xs cs rest : List Char} :
    matchOneOf xs cs = some rest ↔ ∃ c, cs = c :: rest ∧ c ∈ xs := by
  cases cs with
  | nil => simp [matchOneOf]
  | cons c cs =>
    simp only [matchOneOf]
    by_cases h : c ∈ xs
    · simp only [if_pos h, Option.some.injEq]
      constructor
      · intro he
        exact ⟨c, by rw [he], h⟩
      · rintro ⟨d, hd, hdm⟩
        exact (List.cons.injEq _ _ _ _).mp hd |>.2
    · simp only [if_neg h]
      constructor
      · intro he
        exact absurd he (by simp)
      · rintro ⟨d, hd, hdm⟩
        obtain ⟨h1, h2⟩ := (List.cons.injEq _ _ _ _).mp hd
        exact absurd (h1 ▸ hdm) h

/-- Matching `[0-9a-f]\x7bn\x7d` consumes exactly an `n`-character prefix of
hex digits. -/
theorem matchHexRun_eq_some : ∀ {n : Nat} {cs rest : List Char},
    matchHexRun n cs = some rest ↔
      ∃ pre, cs = pre ++ rest ∧ pre.length = n ∧ ∀ c ∈ pre, isHexDigitChar c = true := by
  intro n
  induction n with
  | zero =>
    intro cs rest
    simp only [matchHexRun, Option.some.injEq, List.length_eq_zero]
    constructor
    · intro h
      exact ⟨[], by simp [h], rfl, by simp⟩
    · rintro ⟨pre, hcs, hlen, _⟩
      subst hlen
      simpa using hcs
  | succ n ih =>
    intro cs rest
    cases cs with
    | nil =>
      simp only [matchHexRun]
      constructor
      · intro h
        exact absurd h (by simp)
      · rintro ⟨pre, hcs, hlen, _⟩
        cases pre with
        | nil => simp at hlen
        | cons p pre' => simp at hcs
    | cons c cs =>
      simp only [matchHexRun]
      by_cases h : isHexDigitChar c
      · rw [if_pos h, ih]
        constructor
        · rintro ⟨pre, hcs, hlen, hhex⟩
          refine ⟨c :: pre, by simp [hcs], by simp [hlen], ?_⟩
          intro d hd
          rcases List.mem_cons.mp hd with h1 | h1
          · subst h1; exact h
          · exact hhex d h1
        · rintro ⟨pre, hcs, hlen, hhex⟩
          cases pre with
          | nil => simp at hlen
          | cons p pre' =>
            obtain ⟨hcp, hcs'⟩ := (List.cons.injEq _ _ _ _).mp hcs
            refine ⟨pre', hcs', by simpa using hlen, ?_⟩
            intro d hd
            exact hhex d (List.mem_cons_of_mem _ hd)
      · rw [if_neg h]
        constructor
        · intro hf
          exact absurd hf (by simp)
        · rintro ⟨pre, hcs, hlen, hhex⟩
          cases pre with
          | nil => simp at hlen
          | cons p pre' =>
            obtain ⟨hcp, _⟩ := (List.cons.injEq _ _ _ _).mp hcs
            exact absurd (hcp ▸ hhex p (by simp)) (by simpa using h)

/-- A string matches the main alternative of the `uuid@9` regex exactly
when it decomposes into the dashed 8-4-4-4-12 hexadecimal segments with a
version character in `[1-5]` and a variant character in `[89ab]` of either
case. -/
theorem uuidMainPattern_iff {cs : List Char} :
    uuidMainPattern cs = true ↔
      ∃ s1 s2 v s3 vr s4 s5,
        cs = s1 ++ '-' :: (s2 ++ '-' :: v :: (s3 ++ '-' :: vr :: (s4 ++ '-' :: s5))) ∧
        s1.length = 8 ∧ s2.length = 4 ∧ s3.length = 3 ∧ s4.length = 3 ∧ s5.length = 12 ∧
        (∀ c ∈ s1, isHexDigitChar c = true) ∧ (∀ c ∈ s2, isHexDigitChar c = true) ∧
        (∀ c ∈ s3, isHexDigitChar c = true) ∧ (∀ c ∈ s4, isHexDigitChar c = true) ∧
        (∀ c ∈ s5, isHexDigitChar c = true) ∧
        v ∈ versionChars ∧ vr ∈ variantChars := by
  unfold uuidMainPattern
  rw [decide_eq_true_iff]
  simp only [Option.bind_eq_bind, Option.bind_eq_some, matchHexRun_eq_some,
    matchLit_eq_some, matchOneOf_eq_some]
  constructor
  · rintro ⟨a1, ⟨s1, hcs, hl1, hx1⟩, a2, ha1, a3, ⟨s2, ha2, hl2, hx2⟩, a4, ha3,
      a5, ⟨v, ha4, hvm⟩, a6, ⟨s3, ha5, hl3, hx3⟩, a7, ha6, a8, ⟨vr, ha7, hrm⟩,
      a9, ⟨s4, ha8, hl4, hx4⟩, a10, ha9, s5, ha10, hl5, hx5⟩
    subst ha1 ha2 ha3 ha4 ha5 ha6 ha7 ha8 ha9 ha10
    refine ⟨s1, s2, v, s3, vr, s4, s5, by simpa using hcs, hl1, hl2, hl3, hl4,
      by simpa using hl5, hx1, hx2, hx3, hx4, by simpa using hx5, hvm, hrm⟩
  · rintro ⟨s1, s2, v, s3, vr, s4, s5, hcs, hl1, hl2, hl3, hl4, hl5, hx1, hx2, hx3,
      hx4, hx5, hvm, hrm⟩
    exact ⟨'-' :: (s2 ++ '-' :: v :: (s3 ++ '-' :: vr :: (s4 ++ '-' :: s5))),
      ⟨s1, hcs, hl1, hx1⟩,
      s2 ++ '-' :: v :: (s3 ++ '-' :: vr :: (s4 ++ '-' :: s5)), rfl,
      '-' :: v :: (s3 ++ '-' :: vr :: (s4 ++ '-' :: s5)), ⟨s2, rfl, hl2, hx2⟩,
      v :: (s3 ++ '-' :: vr :: (s4 ++ '-' :: s5)), rfl,
      s3 ++ '-' :: vr :: (s4 ++ '-' :: s5), ⟨v, rfl, hvm⟩,
      '-' :: vr :: (s4 ++ '-' :: s5), ⟨s3, rfl, hl3, hx3⟩,
      vr :: (s4 ++ '-' :: s5), rfl,
      s4 ++ '-' :: s5, ⟨vr, rfl, hrm⟩,
      '-' :: s5, ⟨s4, rfl, hl4, hx4⟩,
      s5, rfl,
      s5, by simp, hl5, hx5⟩

/-- Index 14 of a string of the dashed uuid shape is its version
character (`value.slice(14, 15)` lands right after the `8-4-` prefix). -/
theorem getD14_of_shape (s1 s2 : List Char) (v : Char) (rest : List Char)
    (h1 : s1.length = 8) (h2 : s2.length = 4) :
    (s1 ++ '-' :: (s2 ++ '-' :: v :: rest)).getD 14 ' ' = v := by
  rw [List.getD_append_right _ _ _ _ (by omega)]
  rw [h1]
  rw [List.getD_cons_succ]
  rw [List.getD_append_right _ _ _ _ (by omega)]
  rw [h2]
  rfl

/-- C1: the claim states that chaining `list` pages through `afterId`
enumerates every note exactly once, and that after creating `n0` … `n10`
in order, `list(10, afterId = id of n1)` returns exactly `n0`.  On the
concrete run `elevenNoteStore` (identifiers drawn in increasing order),
the first page is `n10` … `n1` and its last row (`n1`) has id 2, but the
second page returns `n10` … `n2` again — nine duplicates — and never
returns `n0`: the raw-identifier cursor `WHERE id > :afterId` does not
continue the `creationDateTime DESC` ordering. -/
theorem C1_afterId_chain_divergence :
    (NoteDao.list elevenNoteStore none (.int 10) .missing).map
        (fun p => p.notes.map Row.content)
      = .ok ["n10", "n9", "n8", "n7", "n6", "n5", "n4", "n3", "n2", "n1"] ∧
    (NoteDao.list elevenNoteStore none (.int 10) .missing).map
        (fun p => (p.notes.map Row.id).getLast?)
      = .ok (some 2) ∧
    (NoteDao.list elevenNoteStore none (.int 10) (.uuid 2)).map
        (fun p => p.notes.map Row.content)
      = .ok ["n10", "n9", "n8", "n7", "n6", "n5", "n4", "n3", "n2"] ∧
    (NoteDao.list elevenNoteStore none (.int 10) (.uuid 2)).map
        (fun p => p.notes.map Row.content)
      ≠ .ok ["n0"] :=
  ⟨by decide, by decide, by decide, by decide⟩

/-- C2: for every in-range `pageSize` and optional `afterId`, a successful
`list` returns at most `pageSize` rows that form an initial segment of the
store (respectively of the store minus the rows with `id ≤ afterId`)
sorted by `creationDateTime` descending with `id` ascending as tie-break,
and the page's `pageSize` field records the requested bound (the default
20 when the argument was omitted). -/
theorem C2_list_ordering_and_truncation (store : Store) (n : Int)
    (h1 : 1 ≤ n) (h2 : n ≤ 100) :
    (∀ page, NoteDao.list store none (.int n) .missing = .ok page →
      page.pageSize = n ∧ page.notes.length ≤ n.toNat ∧
      ∃ l, store.Perm l ∧ List.Sorted pageOrder l ∧ page.notes = l.take n.toNat) ∧
    (∀ (a : Nat) (page : NoteListPage), NoteDao.list store none (.int n) (.uuid a) = .ok page →
      page.pageSize = n ∧ page.notes.length ≤ n.toNat ∧
      ∃ l, (store.filter fun r => decide (¬ r.id ≤ a)).Perm l ∧
        List.Sorted pageOrder l ∧ page.notes = l.take n.toNat) ∧
    (∀ page, NoteDao.list store none .missing .missing = .ok page →
      page.pageSize = NoteDao.DEFAULT_PAGE_SIZE ∧
      ∃ l, store.Perm l ∧ List.Sorted pageOrder l ∧
        page.notes = l.take NoteDao.DEFAULT_PAGE_SIZE.toNat) := by
  have hval : NoteDao.validatePageSize (.int n) = .ok n := by
    simp only [NoteDao.validatePageSize, NoteDao.MIN_PAGE_SIZE, NoteDao.MAX_PAGE_SIZE]
    rw [if_neg (by omega)]
  refine ⟨?_, ?_, ?_⟩
  · intro page h
    unfold NoteDao.list at h
    rw [hval] at h
    simp only [Bind.bind, Except.bind, NoteDao.validateAfterId] at h
    rw [← (Except.ok.injEq _ _).mp h]
    refine ⟨rfl, List.length_take_le _ _, List.insertionSort pageOrder store,
      (List.perm_insertionSort pageOrder store).symm,
      List.sorted_insertionSort pageOrder store, rfl⟩
  · intro a page h
    unfold NoteDao.list at h
    rw [hval] at h
    simp only [Bind.bind, Except.bind, NoteDao.validateAfterId] at h
    rw [← (Except.ok.injEq _ _).mp h]
    have hfilt : (store.filter fun r => decide (a < r.id)) =
        store.filter fun r => decide (¬ r.id ≤ a) :=
      (List.filter_congr fun r _ => by simp [Nat.not_le]).symm
    refine ⟨rfl, List.length_take_le _ _,
      List.insertionSort pageOrder (store.filter fun r => decide (a < r.id)),
      hfilt ▸ (List.perm_insertionSort pageOrder _).symm,
      List.sorted_insertionSort pageOrder _, rfl⟩
  · intro page h
    unfold NoteDao.list at h
    simp only [NoteDao.validatePageSize, Bind.bind, Except.bind,
      NoteDao.validateAfterId] at h
    rw [← (Except.ok.injEq _ _).mp h]
    refine ⟨rfl, List.insertionSort pageOrder store,
      (List.perm_insertionSort pageOrder store).symm,
      List.sorted_insertionSort pageOrder store, rfl⟩

/-- Witness for C2 at a concrete store and page size. -/
theorem C2_list_ordering_and_truncation_witness :
    (⟨2, [⟨5, "x", 10, 10⟩]⟩ : NoteListPage).pageSize = 2 ∧
    (⟨2, [⟨5, "x", 10, 10⟩]⟩ : NoteListPage).notes.length ≤ (2 : Int).toNat ∧
    ∃ l, ([⟨5, "x", 10, 10⟩] : Store).Perm l ∧ List.Sorted pageOrder l ∧
      (⟨2, [⟨5, "x", 10, 10⟩]⟩ : NoteListPage).notes = l.take (2 : Int).toNat :=
  (C2_list_ordering_and_truncation [⟨5, "x", 10, 10⟩] 2 (by decide) (by decide)).1
    ⟨2, [⟨5, "x", 10, 10⟩]⟩ rfl

/-- C3: for every identifier matching no stored note, the service-level
`update` and `deleteById` raise `EntityNotFoundError` inside their
transaction and leave the store unchanged, and a second `deleteById` of an
identifier whose note was already deleted raises `EntityNotFoundError`
rather than a storage error. -/
theorem C3_service_mutations_require_existence (store : Store) (now id : Nat) (c : String)
    (habsent : ∀ r ∈ store, r.id ≠ id) :
    NoteService.update store none now id c = .error .entityNotFound ∧
    NoteService.deleteById store none id = .error .entityNotFound ∧
    resultingStore (NoteService.update store none now id c) store = store ∧
    resultingStore (NoteService.deleteById store none id) store = store ∧
    (∀ (id0 : Nat) (store1 : Store), NoteService.deleteById store none id0 = .ok store1 →
      NoteService.deleteById store1 none id0 = .error .entityNotFound) := by
  have hfind : NoteDao.findById store none id = .ok none := by
    unfold NoteDao.findById
    rw [findNone_of_absent store id habsent]
  have hupd : NoteService.update store none now id c = .error .entityNotFound := by
    unfold NoteService.update
    rw [hfind]
  have hdel : NoteService.deleteById store none id = .error .entityNotFound := by
    unfold NoteService.deleteById
    rw [hfind]
  refine ⟨hupd, hdel, by rw [hupd]; rfl, by rw [hdel]; rfl, fun id0 store1 h => ?_⟩
  have hstore1 : store1 = store.filter fun r => !(r.id == id0) := by
    unfold NoteService.deleteById NoteDao.findById NoteDao.deleteById at h
    cases hf : store.find? fun r => r.id == id0 with
    | none => rw [hf] at h; exact absurd h (by simp)
    | some r =>
      rw [hf] at h
      exact ((Except.ok.injEq _ _).mp h).symm
  have habs1 : ∀ r ∈ store1, r.id ≠ id0 := by
    intro r hr
    rw [hstore1] at hr
    have := (List.mem_filter.mp hr).2
    simpa using this
  have hfind1 : NoteDao.findById store1 none id0 = .ok none := by
    unfold NoteDao.findById
    rw [findNone_of_absent store1 id0 habs1]
  unfold NoteService.deleteById
  rw [hfind1]

/-- Witness for C3: one stored note with id 1; mutating id 2 fails with
the not-found error and changes nothing, and deleting id 1 twice fails the
second time. -/
theorem C3_service_mutations_require_existence_witness :
    NoteService.update [⟨1, "a", 5, 5⟩] none 9 2 "b" = .error .entityNotFound ∧
    NoteService.deleteById [⟨1, "a", 5, 5⟩] none 2 = .error .entityNotFound ∧
    resultingStore (NoteService.update [⟨1, "a", 5, 5⟩] none 9 2 "b") [⟨1, "a", 5, 5⟩]
      = [⟨1, "a", 5, 5⟩] ∧
    resultingStore (NoteService.deleteById [⟨1, "a", 5, 5⟩] none 2) [⟨1, "a", 5, 5⟩]
      = [⟨1, "a", 5, 5⟩] ∧
    NoteService.deleteById ([] : Store) none 1 = .error .entityNotFound :=
  ⟨(C3_service_mutations_require_existence [⟨1, "a", 5, 5⟩] 9 2 "b" (by decide)).1,
   (C3_service_mutations_require_existence [⟨1, "a", 5, 5⟩] 9 2 "b" (by decide)).2.1,
   (C3_service_mutations_require_existence [⟨1, "a", 5, 5⟩] 9 2 "b" (by decide)).2.2.1,
   (C3_service_mutations_require_existence [⟨1, "a", 5, 5⟩] 9 2 "b" (by decide)).2.2.2.1,
   (C3_service_mutations_require_existence [⟨1, "a", 5, 5⟩] 9 2 "b" (by decide)).2.2.2.2
     1 [] rfl⟩

/-- C4: a fault-free content update keeps `creationDateTime` of the
target row, lets the trigger raise its `lastUpdatedDateTime` to the
current time (never below the previous value under a monotone clock),
preserves the invariant `creationDateTime ≤ lastUpdatedDateTime` for every
row, leaves every other row untouched, and the bare `UPDATE` statement by
itself never writes either timestamp column. -/
theorem C4_update_stamps_and_frames (store : Store) (now id : Nat) (c : String)
    (hclock : ∀ r ∈ store, r.lastUpdatedDateTime ≤ now)
    (hinv : ∀ r ∈ store, r.creationDateTime ≤ r.lastUpdatedDateTime) :
    ∃ store', NoteDao.update store none now id c = .ok store' ∧
      store'.length = store.length ∧
      (∀ (i : Nat) (r r' : Row), store[i]? = some r → store'[i]? = some r' →
        (r.id ≠ id → r' = r) ∧
        (r.id = id → r'.creationDateTime = r.creationDateTime ∧
          r.lastUpdatedDateTime ≤ r'.lastUpdatedDateTime ∧ r'.content = c)) ∧
      (∀ r' ∈ store', r'.creationDateTime ≤ r'.lastUpdatedDateTime) ∧
      (∀ (i : Nat) (r r' : Row), store[i]? = some r →
        (NoteDao.updateContentStmt store id c)[i]? = some r' →
        r'.creationDateTime = r.creationDateTime ∧
        r'.lastUpdatedDateTime = r.lastUpdatedDateTime) := by
  refine ⟨_, NoteDao.update_ok store now id c, List.length_map .., ?_, ?_, ?_⟩
  · intro i r r' hr hr'
    rw [List.getElem?_map, hr, Option.map_some'] at hr'
    have hrr' := (Option.some.injEq _ _).mp hr'
    have hmem : r ∈ store := by
      obtain ⟨hlt, he⟩ := List.getElem?_eq_some_iff.mp hr
      exact he ▸ List.getElem_mem hlt
    constructor
    · intro hne
      rw [if_neg hne] at hrr'
      exact hrr'.symm
    · intro heq
      rw [if_pos heq] at hrr'
      refine ⟨by rw [← hrr'], ?_, by rw [← hrr']⟩
      rw [← hrr']
      exact hclock r hmem
  · intro r' hr'
    obtain ⟨r, hmem, hrr'⟩ := List.mem_map.mp hr'
    by_cases heq : r.id = id
    · rw [if_pos heq] at hrr'
      rw [← hrr']
      exact le_trans (hinv r hmem) (hclock r hmem)
    · rw [if_neg heq] at hrr'
      rw [← hrr']
      exact hinv r hmem
  · intro i r r' hr hr'
    unfold NoteDao.updateContentStmt at hr'
    rw [List.getElem?_map, hr, Option.map_some'] at hr'
    have hrr' := (Option.some.injEq _ _).mp hr'
    by_cases heq : r.id = id
    · rw [if_pos heq] at hrr'
      exact ⟨by rw [← hrr'], by rw [← hrr']⟩
    · rw [if_neg heq] at hrr'
      exact ⟨by rw [← hrr'], by rw [← hrr']⟩

/-- Witness for C4 at a two-row store, updating the row with id 1. -/
theorem C4_update_stamps_and_frames_witness :
    ∃ store' : Store,
      NoteDao.update ([⟨1, "a", 5, 6⟩, ⟨2, "b", 5, 5⟩] : Store) none 9 1 "z" = .ok store' ∧
      store'.length = ([⟨1, "a", 5, 6⟩, ⟨2, "b", 5, 5⟩] : Store).length ∧
      (∀ (i : Nat) (r r' : Row), ([⟨1, "a", 5, 6⟩, ⟨2, "b", 5, 5⟩] : Store)[i]? = some r →
        store'[i]? = some r' →
        (r.id ≠ 1 → r' = r) ∧
        (r.id = 1 → r'.creationDateTime = r.creationDateTime ∧
          r.lastUpdatedDateTime ≤ r'.lastUpdatedDateTime ∧ r'.content = "z")) ∧
      (∀ r' ∈ store', r'.creationDateTime ≤ r'.lastUpdatedDateTime) ∧
      (∀ (i : Nat) (r r' : Row), ([⟨1, "a", 5, 6⟩, ⟨2, "b", 5, 5⟩] : Store)[i]? = some r →
        (NoteDao.updateContentStmt ([⟨1, "a", 5, 6⟩, ⟨2, "b", 5, 5⟩] : Store) 1 "z")[i]?
          = some r' →
        r'.creationDateTime = r.creationDateTime ∧
        r'.lastUpdatedDateTime = r.lastUpdatedDateTime) :=
  C4_update_stamps_and_frames [⟨1, "a", 5, 6⟩, ⟨2, "b", 5, 5⟩] 9 1 "z" (by decide) (by decide)

/-- C5: `list` fails with a `TypeError` before touching the store when
`pageSize` is not an integer, with a `RangeError` when it is an integer
outside `[1, 100]`, and with a `TypeError` when `afterId` is not a valid
identifier (in every case for an arbitrary injected storage fault, since
validation precedes all I/O); an omitted `pageSize` behaves exactly as the
default 20; and a successful page holds at most `pageSize` notes.  Both
the dao and the service layer satisfy the validation clauses. -/
theorem C5_list_validation_and_bound (store : Store) :
    (∀ (fault : Option DbErr) (aa : AfterIdArg),
      NoteDao.list store fault .notInt aa = .error .typeError ∧
      NoteService.list store fault .notInt aa = .error .typeError) ∧
    (∀ (fault : Option DbErr) (n : Int) (aa : AfterIdArg), n < 1 ∨ 100 < n →
      NoteDao.list store fault (.int n) aa = .error .rangeError ∧
      NoteService.list store fault (.int n) aa = .error .rangeError) ∧
    (∀ (fault : Option DbErr) (n : Int), 1 ≤ n → n ≤ 100 →
      NoteDao.list store fault (.int n) .notUuid = .error .typeError ∧
      NoteService.list store fault (.int n) .notUuid = .error .typeError ∧
      NoteDao.list store fault .missing .notUuid = .error .typeError ∧
      NoteService.list store fault .missing .notUuid = .error .typeError) ∧
    (∀ (fault : Option DbErr) (aa : AfterIdArg),
      NoteDao.list store fault .missing aa =
        NoteDao.list store fault (.int NoteDao.DEFAULT_PAGE_SIZE) aa ∧
      NoteService.list store fault .missing aa =
        NoteService.list store fault (.int NoteDao.DEFAULT_PAGE_SIZE) aa) ∧
    NoteDao.DEFAULT_PAGE_SIZE = 20 ∧
    (∀ (n : Int) (aa : AfterIdArg) (page : NoteListPage), 1 ≤ n → n ≤ 100 →
      NoteDao.list store none (.int n) aa = .ok page →
      (page.notes.length : Int) ≤ n) := by
  have hval : ∀ n : Int, 1 ≤ n → n ≤ 100 → NoteDao.validatePageSize (.int n) = .ok n := by
    intro n hn1 hn2
    simp only [NoteDao.validatePageSize, NoteDao.MIN_PAGE_SIZE, NoteDao.MAX_PAGE_SIZE]
    rw [if_neg (by omega)]
  have hrange : ∀ n : Int, (n < 1 ∨ 100 < n) →
      NoteDao.validatePageSize (.int n) = .error .rangeError := by
    intro n hn
    simp only [NoteDao.validatePageSize, NoteDao.MIN_PAGE_SIZE, NoteDao.MAX_PAGE_SIZE]
    rw [if_pos (by omega)]
  refine ⟨fun fault aa => ⟨rfl, rfl⟩, ?_, ?_, ?_, rfl, ?_⟩
  · intro fault n aa hn
    constructor
    · unfold NoteDao.list
      rw [hrange n hn]
      rfl
    · unfold NoteService.list
      rw [hrange n hn]
      rfl
  · intro fault n hn1 hn2
    refine ⟨?_, ?_, rfl, rfl⟩
    · unfold NoteDao.list
      rw [hval n hn1 hn2]
      rfl
    · unfold NoteService.list
      rw [hval n hn1 hn2]
      rfl
  · intro fault aa
    constructor
    · unfold NoteDao.list
      rfl
    · unfold NoteService.list
      rfl
  · intro n aa page hn1 hn2 h
    unfold NoteDao.list at h
    rw [hval n hn1 hn2] at h
    cases aa with
    | missing =>
      simp only [Bind.bind, Except.bind, NoteDao.validateAfterId] at h
      rw [← (Except.ok.injEq _ _).mp h]
      dsimp only
      have := List.length_take_le n.toNat (List.insertionSort pageOrder store)
      omega
    | notUuid =>
      simp only [Bind.bind, Except.bind, NoteDao.validateAfterId] at h
      exact absurd h (by simp)
    | uuid a =>
      simp only [Bind.bind, Except.bind, NoteDao.validateAfterId] at h
      rw [← (Except.ok.injEq _ _).mp h]
      dsimp only
      have := List.length_take_le n.toNat
        (List.insertionSort pageOrder (store.filter fun r => decide (a < r.id)))
      omega

/-- Witness for C5 on the empty store, at page sizes 101 (range), 5 and
the default. -/
theorem C5_list_validation_and_bound_witness :
    (NoteDao.list [] none .notInt .missing = .error .typeError ∧
      NoteService.list [] none .notInt .missing = .error .typeError) ∧
    (NoteDao.list [] none (.int 101) .missing = .error .rangeError ∧
      NoteService.list [] none (.int 101) .missing = .error .rangeError) ∧
    (NoteDao.list [] none (.int 5) .notUuid = .error .typeError ∧
      NoteService.list [] none (.int 5) .notUuid = .error .typeError ∧
      NoteDao.list [] none .missing .notUuid = .error .typeError ∧
      NoteService.list [] none .missing .notUuid = .error .typeError) ∧
    (NoteDao.list [] none .missing .missing =
        NoteDao.list [] none (.int NoteDao.DEFAULT_PAGE_SIZE) .missing ∧
      NoteService.list [] none .missing .missing =
        NoteService.list [] none (.int NoteDao.DEFAULT_PAGE_SIZE) .missing) ∧
    (((⟨5, []⟩ : NoteListPage).notes.length : Int) ≤ 5) :=
  ⟨(C5_list_validation_and_bound []).1 none .missing,
   (C5_list_validation_and_bound []).2.1 none 101 .missing (by omega),
   (C5_list_validation_and_bound []).2.2.1 none 5 (by omega) (by omega),
   (C5_list_validation_and_bound []).2.2.2.1 none .missing,
   (C5_list_validation_and_bound []).2.2.2.2.2 5 .missing ⟨5, []⟩ (by omega) (by omega) rfl⟩

/-- C6: inserting any content string (the empty string included) under a
fresh generated identifier succeeds, returns that fresh identifier, and a
subsequent `findById` returns a note carrying exactly that content whose
two timestamps were both set to the insert time by the schema defaults
(so `creationDateTime ≤ now` and the two timestamps coincide). -/
theorem C6_create_findById_roundtrip (store : Store) (genId now : Nat) (c : String)
    (hfresh : ∀ r ∈ store, r.id ≠ genId) :
    ∃ (id : Nat) (store' : Store), NoteDao.create store none genId now c = .ok (id, store') ∧
      (∀ r ∈ store, r.id ≠ id) ∧
      (∃ note, NoteDao.findById store' none id = .ok (some note) ∧
        note.content = c ∧ note.creationDateTime ≤ now ∧
        note.lastUpdatedDateTime = note.creationDateTime) := by
  have hany : (store.any fun r => r.id == genId) = false := by
    rw [List.any_eq_false]
    intro r hr
    simp [hfresh r hr]
  refine ⟨genId,
    store ++ [{ id := genId, content := c, creationDateTime := now, lastUpdatedDateTime := now }],
    ?_, hfresh,
    ⟨{ id := genId, content := c, creationDateTime := now, lastUpdatedDateTime := now },
      ?_, rfl, le_refl now, rfl⟩⟩
  · unfold NoteDao.create
    rw [hany]
    rfl
  · unfold NoteDao.findById
    rw [List.find?_append, findNone_of_absent store genId hfresh, Option.none_or]
    simp [List.find?]

/-- Witness for C6: create an empty-content note with fresh id 7 next to
an existing note. -/
theorem C6_create_findById_roundtrip_witness :
    ∃ (id : Nat) (store' : Store),
      NoteDao.create ([⟨1, "a", 5, 5⟩] : Store) none 7 8 "" = .ok (id, store') ∧
      (∀ r ∈ ([⟨1, "a", 5, 5⟩] : Store), r.id ≠ id) ∧
      (∃ note, NoteDao.findById store' none id = .ok (some note) ∧
        note.content = "" ∧ note.creationDateTime ≤ 8 ∧
        note.lastUpdatedDateTime = note.creationDateTime) :=
  C6_create_findById_roundtrip [⟨1, "a", 5, 5⟩] 7 8 "" (by decide)

/-- C7 (amended): `UuidV4` construction accepts a string exactly when it
is a dashed 8-4-4-4-12 hexadecimal rendering with hex digits of *either*
case whose version character is `4` and whose variant character lies in
`[89ab]` of either case — acceptance is case-insensitive rather than
restricted to the canonical lowercase form — and two `UuidV4` values are
equal exactly when their stored (case-sensitive) strings are equal. -/
theorem C7_acceptance_characterization (s : String) :
    (uuidV4Accepts s = true ↔ V4Segments s.data) ∧
    (∀ u v : UuidV4, u = v ↔ u.value = v.value) := by
  constructor
  · unfold uuidV4Accepts validateUuid
    simp only [Bool.and_eq_true, Bool.or_eq_true, beq_iff_eq]
    constructor
    · rintro ⟨hmain | hnil, hver⟩
      · obtain ⟨s1, s2, v, s3, vr, s4, s5, hcs, hl1, hl2, hl3, hl4, hl5,
          hx1, hx2, hx3, hx4, hx5, hvm, hrm⟩ := uuidMainPattern_iff.mp hmain
        have hv4 : v = '4' := by
          have hgd : uuidVersion s = hexVal v := by
            unfold uuidVersion
            rw [hcs, getD14_of_shape s1 s2 v _ hl1 hl2]
          rw [hgd] at hver
          fin_cases hvm <;> first | rfl | (exfalso; exact absurd hver (by decide))
        subst hv4
        refine ⟨s1, s2, s3, s4, s5, vr, hcs, hl1, hl2, hl3, hl4, hl5, ?_, hrm⟩
        intro c hc
        simp only [List.append_assoc, List.mem_append] at hc
        rcases hc with h | h | h | h | h
        · exact hx1 c h
        · exact hx2 c h
        · exact hx3 c h
        · exact hx4 c h
        · exact hx5 c h
      · exfalso
        rw [hnil] at hver
        exact absurd hver (by decide)
    · rintro ⟨s1, s2, s3, s4, s5, vr, hcs, hl1, hl2, hl3, hl4, hl5, hhex, hrm⟩
      have hmain : uuidMainPattern s.data = true := by
        rw [uuidMainPattern_iff]
        refine ⟨s1, s2, '4', s3, vr, s4, s5, hcs, hl1, hl2, hl3, hl4, hl5,
          ?_, ?_, ?_, ?_, ?_, by decide, hrm⟩ <;>
          (intro c hc; apply hhex; simp only [List.append_assoc, List.mem_append]; tauto)
      refine ⟨Or.inl hmain, ?_⟩
      unfold uuidVersion
      rw [hcs, getD14_of_shape s1 s2 '4' _ hl1 hl2]
      rfl
  · intro u v
    constructor
    · intro h
      rw [h]
    · intro h
      cases u
      cases v
      simpa using h

/-- Witness for C7: the lowercase v4 string decomposes into the accepted
segment shape. -/
theorem C7_acceptance_characterization_witness :
    V4Segments ("109156be-c4fb-41ea-b1b4-efe1671c5836").data :=
  ((C7_acceptance_characterization "109156be-c4fb-41ea-b1b4-efe1671c5836").1).mp (by decide)

/-- C7 counterexample to the claim as stated: the uppercase rendering of
a valid v4 identifier is accepted by the constructor even though it is not
the canonical lowercase dashed form (so acceptance is not restricted to
that form), and the two case renderings of the same 128-bit value are
distinct `UuidV4` values even though their canonical forms agree. -/
theorem C7_uppercase_counterexample :
    uuidV4Accepts "109156BE-C4FB-41EA-B1B4-EFE1671C5836" = true ∧
    isLowercaseCanonicalV4 "109156BE-C4FB-41EA-B1B4-EFE1671C5836" = false ∧
    uuidV4Accepts "109156be-c4fb-41ea-b1b4-efe1671c5836" = true ∧
    isLowercaseCanonicalV4 "109156be-c4fb-41ea-b1b4-efe1671c5836" = true ∧
    UuidV4.make "109156BE-C4FB-41EA-B1B4-EFE1671C5836" ≠
      UuidV4.make "109156be-c4fb-41ea-b1b4-efe1671c5836" ∧
    "109156BE-C4FB-41EA-B1B4-EFE1671C5836".data.map Char.toLower =
      "109156be-c4fb-41ea-b1b4-efe1671c5836".data :=
  ⟨by decide, by decide, by decide, by decide, by decide, by decide⟩

/-- C8: `findById` with a valid identifier that matches no row returns the
explicit absent result `null` rather than an error; it errors only when
the underlying store operation itself fails, and then with the wrapped
`DaoError` carrying the original cause. -/
theorem C8_findById_absent_vs_failure (store : Store) (id : Nat) :
    ((∀ r ∈ store, r.id ≠ id) → NoteDao.findById store none id = .ok none) ∧
    (∀ e, NoteDao.findById store (some e) id = .error (.daoError e)) ∧
    (∀ (fault : Option DbErr) (err : Err), NoteDao.findById store fault id = .error err →
      ∃ cause, fault = some cause ∧ err = .daoError cause) := by
  refine ⟨fun h => ?_, fun e => rfl, fun fault err h => ?_⟩
  · unfold NoteDao.findById
    rw [findNone_of_absent store id h]
  · cases fault with
    | none => exact absurd h (by unfold NoteDao.findById; simp)
    | some e =>
      refine ⟨e, rfl, ?_⟩
      unfold NoteDao.findById at h
      exact ((Except.error.injEq _ _).mp h).symm

/-- Witness for C8: id 2 is absent from a one-note store; a busy database
fails with the wrapped cause. -/
theorem C8_findById_absent_vs_failure_witness :
    NoteDao.findById [⟨1, "a", 5, 5⟩] none 2 = .ok none ∧
    NoteDao.findById [⟨1, "a", 5, 5⟩] (some .busy) 2 = .error (.daoError .busy) ∧
    (∃ cause, (some DbErr.busy : Option DbErr) = some cause ∧
      Err.daoError .busy = .daoError cause) :=
  ⟨(C8_findById_absent_vs_failure [⟨1, "a", 5, 5⟩] 2).1 (by decide),
   (C8_findById_absent_vs_failure [⟨1, "a", 5, 5⟩] 2).2.1 .busy,
   (C8_findById_absent_vs_failure [⟨1, "a", 5, 5⟩] 2).2.2 (some .busy) (.daoError .busy) rfl⟩

/-- C9: the storage-layer `update` on an identifier matching no row is an
unconditional no-op — it raises no error and returns the store exactly as
it was, inserting and modifying nothing. -/
theorem C9_dao_update_missing_row_noop (store : Store) (now id : Nat) (c : String)
    (habsent : ∀ r ∈ store, r.id ≠ id) :
    NoteDao.update store none now id c = .ok store := by
  rw [NoteDao.update_ok]
  congr 1
  exact (List.map_congr_left (g := fun r => r) fun r hr => if_neg (habsent r hr)).trans
    (List.map_id' store)

/-- Witness for C9: updating absent id 2 leaves the one-note store
untouched. -/
theorem C9_dao_update_missing_row_noop_witness :
    NoteDao.update [⟨1, "a", 5, 5⟩] none 9 2 "b" = .ok [⟨1, "a", 5, 5⟩] :=
  C9_dao_update_missing_row_noop [⟨1, "a", 5, 5⟩] 9 2 "b" (by decide)

/-- C10: the entity classes form the `extends` chain
`Note extends NoteForUpdate extends NoteForCreate`, so every persisted
`Note` passes the `instanceof NoteForUpdate` and `instanceof NoteForCreate`
guards, every `NoteForUpdate` passes the `instanceof NoteForCreate` guard,
and feeding a mapped row to the guarded dao operations never reaches their
`TypeError` branch — they reduce to the unguarded operations. -/
theorem C10_entity_chain_guard_unreachable :
    (∀ r : Row, instanceOf (mapRowToNote r) .noteForUpdate = true ∧
      instanceOf (mapRowToNote r) .noteForCreate = true) ∧
    (∀ (id : Nat) (c : String), instanceOf (.forUpdate id c) .noteForCreate = true) ∧
    (∀ (store : Store) (fault : Option DbErr) (now : Nat) (r : Row),
      NoteDao.updateObj store fault now (mapRowToNote r) =
        NoteDao.update store fault now r.id r.content) ∧
    (∀ (store : Store) (fault : Option DbErr) (genId now : Nat) (v : NoteObjectValue),
      NoteDao.createObj store fault genId now v =
        NoteDao.create store fault genId now v.contentOf) := by
  refine ⟨fun r => ⟨rfl, rfl⟩, fun id c => rfl, fun store fault now r => rfl,
    fun store fault genId now v => ?_⟩
  cases v <;> rfl
